import Mathlib

/-!
Verification of the Ralph orchestrator core (state management, dependency
gate, signal detection, agent runner boundary, orchestration loop, and the
testing feedback loop) against its natural-language specification.

The definitions below are a shallow embedding of the TypeScript sources:
`lib/state.ts` (PRD store, stories, metrics, dependency gate, fix stories),
`lib/index.ts` (orchestrator: config, runAgent, parseStatusFromOutput,
runOrchestration) and `lib/testing.ts` (detectTestResult, extractIssues,
runTesting).  File-system effects are modelled by explicit state passing:
the store is a list of (position, unit) entries, a thrown exception is an
`Except.error`, and JavaScript regular-expression tests are modelled by an
executable matcher over a small pattern language covering exactly the
constructs those regexes use.  Timestamps, console output and the findings /
verification side channels are not observable by any claim and are not
tracked.
-/

namespace Ralph

/-- Status of a single story (Task), as in the `StoryStatus` union type. -/
inductive StoryStatus where
  | pending
  | in_progress
  | completed
  | blocked
deriving DecidableEq, Repr

/-- Physical status folder of a PRD (Unit), as in the `PRDStatus` union type. -/
inductive PRDStatus where
  | pending
  | in_progress
  | testing
  | completed
deriving DecidableEq, Repr

/-- Accumulated PRD metrics (`prd.metrics`); every field may be absent on disk. -/
structure Metrics where
  inputTokens : Option Nat
  outputTokens : Option Nat
  totalTokens : Option Nat
  iterations : Option Nat
deriving DecidableEq, Repr

/-- The delta argument of `updateMetrics` (all fields optional in the source). -/
structure MetricsDelta where
  inputTokens : Option Nat
  outputTokens : Option Nat
  iterations : Option Nat
deriving DecidableEq, Repr

/-- A story (Task) record, per the `Story` interface: id, title, acceptance
criteria, status, integer priority, questions, optional answers, optional
iteration (retry) counter. -/
structure Story where
  id : String
  title : String
  acceptanceCriteria : List String
  status : StoryStatus
  priority : Int
  questions : List String
  answers : Option (List String)
  iterationCount : Option Nat
deriving DecidableEq, Repr

/-- A PRD (Unit) record: name, description, stories, optional dependency list,
optional metrics.  Timestamp fields (`createdAt`, `startedAt`, `completedAt`)
and `lastRun` are not read by any modelled operation and are omitted. -/
structure PRD where
  name : String
  description : String
  stories : List Story
  dependencies : Option (List String)
  metrics : Option Metrics
deriving DecidableEq, Repr

/-- Errors thrown by the store operations (`throw new Error(...)` sites). -/
inductive RalphError where
  | prdNotFound (name : String)
  | prdAlreadyExists (name : String) (toStatus : PRDStatus)
  | storyNotFound (id : String)
  | storyNotBlocked (id : String)
  | answersMismatch (expected got : Nat)
deriving DecidableEq, Repr

/-! ## JavaScript string helpers -/

/-- Whitespace characters recognised by the JavaScript `\s` class and
`String.prototype.trim` (ASCII part; the rarely-used Unicode spaces are not
produced by any modelled text). -/
def isJsWs (c : Char) : Bool :=
  c == ' ' || c == '\t' || c == '\n' || c == '\r' || c == '\x0b' || c == '\x0c'

/-- Substring test on character lists, modelling `String.prototype.includes`
(case-sensitive). -/
def containsSub (needle : List Char) : List Char → Bool
  | [] => needle.isEmpty
  | c :: cs => needle.isPrefixOf (c :: cs) || containsSub needle cs

/-- Substring test on strings, modelling `output.includes(needle)`. -/
def containsSubstring (needle s : String) : Bool :=
  containsSub needle.data s.data

/-- Remainder of the list after the first occurrence of `needle`
(`none` if `needle` never occurs). -/
def afterFirst (needle : List Char) : List Char → Option (List Char)
  | [] => if needle.isEmpty then some [] else none
  | c :: cs =>
    if needle.isPrefixOf (c :: cs) then some ((c :: cs).drop needle.length)
    else afterFirst needle cs

/-- Characters strictly before the first occurrence of `needle`
(`none` if `needle` never occurs). -/
def beforeFirst (needle : List Char) : List Char → Option (List Char)
  | [] => if needle.isEmpty then some [] else none
  | c :: cs =>
    if needle.isPrefixOf (c :: cs) then some []
    else (beforeFirst needle cs).map (c :: ·)

/-- Drop the first occurrence of `needle`, modelling
`s.replace(needle, "")` with a plain-string pattern and empty replacement. -/
def removeFirst (needle : List Char) : List Char → List Char
  | [] => []
  | c :: cs =>
    if needle.isPrefixOf (c :: cs) then (c :: cs).drop needle.length
    else c :: removeFirst needle cs

/-- Trim on character lists, modelling `String.prototype.trim` over the
`isJsWs` class. -/
def trimChars (l : List Char) : List Char :=
  ((l.dropWhile isJsWs).reverse.dropWhile isJsWs).reverse

/-- Trim, modelling `String.prototype.trim`. -/
def jsTrim (s : String) : String :=
  String.mk (trimChars s.data)

/-- Prefix test, modelling `String.prototype.startsWith`. -/
def jsStartsWith (s pre : String) : Bool :=
  pre.data.isPrefixOf s.data

/-- Split at `'\n'`, modelling `String.prototype.split("\n")` (the list is
never empty; a trailing separator yields a trailing empty line). -/
def splitLines : List Char → List (List Char)
  | [] => [[]]
  | c :: cs =>
    match splitLines cs with
    | [] => [[]]
    | r :: rs => if c == '\n' then [] :: r :: rs else (c :: r) :: rs

/-- Decimal digit run value: `none` when the run is empty (a `NaN` result). -/
def digitsVal (cs : List Char) : Option Nat :=
  let ds := cs.takeWhile (fun c => c.isDigit)
  if ds.isEmpty then none
  else some (ds.foldl (fun acc c => acc * 10 + (c.toNat - '0'.toNat)) 0)

/-- Base-10 `Number.parseInt`: skip leading whitespace, optional sign, then a
leading digit run; `none` models `NaN`. -/
def jsParseInt (s : String) : Option Int :=
  match s.data.dropWhile isJsWs with
  | '-' :: rest => (digitsVal rest).map (fun n => -(n : Int))
  | '+' :: rest => (digitsVal rest).map (fun n => (n : Int))
  | cs => (digitsVal cs).map (fun n => (n : Int))

/-- Pad a decimal string on the left with `'0'` to width 3, modelling
`String(n).padStart(3, "0")`. -/
def padStart3 (s : String) : String :=
  if s.length ≥ 3 then s else String.mk (List.replicate (3 - s.length) '0') ++ s

/-! ## A small regular-expression language

The regexes in `parseStatusFromOutput` use only these constructs: literal
text matched with the `i` flag, `\s+`, `.*` (no line terminators), and one
two-way literal alternation.  `RAtom` covers exactly those; `matchHere`
is a backtracking matcher (so `rtest` agrees with `RegExp.prototype.test`,
which asks only whether a match exists somewhere). -/

/-- One regex atom: case-insensitive literal, `\s+`, `.*`, or `(a|b)`. -/
inductive RAtom where
  | lit (s : List Char)
  | ws
  | dotStar
  | alt (a b : List Char)
deriving DecidableEq, Repr

/-- Fuel weight of an atom: an upper bound on pattern-only steps it needs. -/
def atomWeight : RAtom → Nat
  | .lit s => 1 + s.length
  | .ws => 1
  | .dotStar => 1
  | .alt a b => 2 + a.length + b.length

/-- Fuel weight of a pattern. -/
def patsWeight : List RAtom → Nat
  | [] => 0
  | a :: ps => atomWeight a + patsWeight ps

/-- Backtracking matcher: does the pattern match a prefix of `cs`?  Every
recursive call strictly decreases `patsWeight ps + cs.length`, so the fuel
used by `matchHere` below is always sufficient (`matchHereF_congr`). -/
def matchHereF : Nat → List RAtom → List Char → Bool
  | 0, _, _ => false
  | _ + 1, [], _ => true
  | fuel + 1, .lit [] :: ps, cs => matchHereF fuel ps cs
  | _ + 1, .lit (_ :: _) :: _, [] => false
  | fuel + 1, .lit (l :: ls) :: ps, c :: cs =>
    l.toLower == c.toLower && matchHereF fuel (.lit ls :: ps) cs
  | _ + 1, .ws :: _, [] => false
  | fuel + 1, .ws :: ps, c :: cs =>
    isJsWs c && (matchHereF fuel ps cs || matchHereF fuel (.ws :: ps) cs)
  | fuel + 1, .dotStar :: ps, [] => matchHereF fuel ps []
  | fuel + 1, .dotStar :: ps, c :: cs =>
    matchHereF fuel ps (c :: cs) ||
      (!(c == '\n' || c == '\r') && matchHereF fuel (.dotStar :: ps) cs)
  | fuel + 1, .alt a b :: ps, cs =>
    matchHereF fuel (.lit a :: ps) cs || matchHereF fuel (.lit b :: ps) cs

/-- Does the pattern match starting exactly at the head of `cs`? -/
def matchHere (ps : List RAtom) (cs : List Char) : Bool :=
  matchHereF (patsWeight ps + cs.length + 1) ps cs

/-- Does the pattern match starting at any position, as `RegExp.test` asks? -/
def rsearch (ps : List RAtom) : List Char → Bool
  | [] => matchHere ps []
  | c :: cs => matchHere ps (c :: cs) || rsearch ps cs

/-- Pattern test on a string (`pattern.test(s)`). -/
def rtest (ps : List RAtom) (s : String) : Bool :=
  rsearch ps s.data

/-- Fuel inessentiality: any fuel above the weight bound gives the same
answer, so `matchHere` computes the fuel-free backtracking semantics. -/
theorem matchHereF_congr :
    ∀ f₁ f₂ ps cs, patsWeight ps + cs.length < f₁ → patsWeight ps + cs.length < f₂ →
      matchHereF f₁ ps cs = matchHereF f₂ ps cs := by
  intro f₁
  induction f₁ using Nat.strong_induction_on with
  | _ f₁ ih =>
    intro f₂ ps cs h₁ h₂
    match f₁, f₂, ps, cs with
    | 0, _, ps, cs => omega
    | _ + 1, 0, ps, cs => omega
    | _ + 1, _ + 1, [], _ => rfl
    | f + 1, g + 1, .lit [] :: ps, cs =>
      simp only [matchHereF]
      exact ih f (by omega) g ps cs (by simp [patsWeight, atomWeight] at h₁ ⊢; omega)
        (by simp [patsWeight, atomWeight] at h₂ ⊢; omega)
    | _ + 1, _ + 1, .lit (_ :: _) :: _, [] => rfl
    | f + 1, g + 1, .lit (l :: ls) :: ps, c :: cs =>
      simp only [matchHereF]
      have := ih f (by omega) g (.lit ls :: ps) cs
        (by simp [patsWeight, atomWeight, List.length] at h₁ ⊢; omega)
        (by simp [patsWeight, atomWeight, List.length] at h₂ ⊢; omega)
      rw [this]
    | _ + 1, _ + 1, .ws :: _, [] => rfl
    | f + 1, g + 1, .ws :: ps, c :: cs =>
      simp only [matchHereF]
      have ha := ih f (by omega) g ps cs
        (by simp [patsWeight, atomWeight] at h₁ ⊢; omega)
        (by simp [patsWeight, atomWeight] at h₂ ⊢; omega)
      have hb := ih f (by omega) g (.ws :: ps) cs
        (by simp [patsWeight, atomWeight] at h₁ ⊢; omega)
        (by simp [patsWeight, atomWeight] at h₂ ⊢; omega)
      rw [ha, hb]
    | f + 1, g + 1, .dotStar :: ps, [] =>
      simp only [matchHereF]
      exact ih f (by omega) g ps []
        (by simp [patsWeight, atomWeight] at h₁ ⊢; omega)
        (by simp [patsWeight, atomWeight] at h₂ ⊢; omega)
    | f + 1, g + 1, .dotStar :: ps, c :: cs =>
      simp only [matchHereF]
      have ha := ih f (by omega) g ps (c :: cs)
        (by simp [patsWeight, atomWeight] at h₁ ⊢; omega)
        (by simp [patsWeight, atomWeight] at h₂ ⊢; omega)
      have hb := ih f (by omega) g (.dotStar :: ps) cs
        (by simp [patsWeight, atomWeight] at h₁ ⊢; omega)
        (by simp [patsWeight, atomWeight] at h₂ ⊢; omega)
      rw [ha, hb]
    | f + 1, g + 1, .alt a b :: ps, cs =>
      simp only [matchHereF]
      have ha := ih f (by omega) g (.lit a :: ps) cs
        (by simp [patsWeight, atomWeight] at h₁ ⊢; omega)
        (by simp [patsWeight, atomWeight] at h₂ ⊢; omega)
      have hb := ih f (by omega) g (.lit b :: ps) cs
        (by simp [patsWeight, atomWeight] at h₁ ⊢; omega)
        (by simp [patsWeight, atomWeight] at h₂ ⊢; omega)
      rw [ha, hb]

/-! ## Signal detector (`parseStatusFromOutput` in `lib/index.ts`) -/

/-- Result of heuristic status inference. -/
inductive InferredStatus where
  | completed
  | blocked
deriving DecidableEq, Repr

/-- The five completion-detection regexes, in source order:
`` `${storyId}\s+completed` ``, `` `marked\s+${storyId}\s+as\s+completed` ``,
`` `${storyId}.*status.*completed` ``, `/All checks pass/i`,
`/Committed changes/i`. -/
def completionPatterns (storyId : String) : List (List RAtom) :=
  [ [.lit storyId.data, .ws, .lit "completed".data],
    [.lit "marked".data, .ws, .lit storyId.data, .ws, .lit "as".data, .ws,
      .lit "completed".data],
    [.lit storyId.data, .dotStar, .lit "status".data, .dotStar, .lit "completed".data],
    [.lit "All checks pass".data],
    [.lit "Committed changes".data] ]

/-- The four blocking-detection regexes, in source order:
`` `${storyId}.*blocked` ``, `/cannot\s+(complete|proceed)/i`,
`/unclear requirements/i`, `/missing.*dependencies/i`. -/
def blockPatterns (storyId : String) : List (List RAtom) :=
  [ [.lit storyId.data, .dotStar, .lit "blocked".data],
    [.lit "cannot".data, .ws, .alt "complete".data "proceed".data],
    [.lit "unclear requirements".data],
    [.lit "missing".data, .dotStar, .lit "dependencies".data] ]

/-- Strip a case-insensitive literal prefix, returning the remainder. -/
def stripLitCI : List Char → List Char → Option (List Char)
  | [], cs => some cs
  | _ :: _, [] => none
  | l :: ls, c :: cs => if l.toLower == c.toLower then stripLitCI ls cs else none

/-- Drop leading `\s*` whitespace (safe to take greedily here because in the
JSON regex every `\s*` is followed by a non-whitespace literal). -/
def dropWs : List Char → List Char
  | [] => []
  | c :: cs => if isJsWs c then dropWs cs else c :: cs

/-- Match `"status"\s*:\s*"(completed|blocked)"` at the head of `cs`,
returning which alternative matched.  The alternatives start with distinct
letters, so the regex alternation is unambiguous here. -/
def statusValueAt (cs : List Char) : Option InferredStatus :=
  match stripLitCI "\"status\"".data cs with
  | none => none
  | some cs₁ =>
    match stripLitCI ":".data (dropWs cs₁) with
    | none => none
    | some cs₂ =>
      match stripLitCI "\"completed\"".data (dropWs cs₂) with
      | some _ => some .completed
      | none =>
        match stripLitCI "\"blocked\"".data (dropWs cs₂) with
        | some _ => some .blocked
        | none => none

/-- Rightmost successful `statusValueAt` within a brace-free run: the greedy
`[^}]*` before `"status"` backtracks from the right, so the last occurrence
inside the run is the one captured. -/
def lastStatusIn : List Char → Option InferredStatus
  | [] => none
  | c :: cs =>
    match lastStatusIn cs with
    | some v => some v
    | none => statusValueAt (c :: cs)

/-- Characters strictly before the first `'}'`; `none` when no `'}'` follows
(then no match can close at or beyond this point). -/
def takeBeforeRBrace : List Char → Option (List Char)
  | [] => none
  | c :: cs => if c == '}' then some [] else (takeBeforeRBrace cs).map (c :: ·)

/-- Leftmost match of `/\{[^}]*"status"\s*:\s*"(completed|blocked)"[^}]*\}/i`:
scan for the first `'{'` whose brace-free run contains the status key, and
return the (greedily chosen, i.e. rightmost) captured alternative. -/
def jsonScan : List Char → Option InferredStatus
  | [] => none
  | c :: cs =>
    if c == '{' then
      match takeBeforeRBrace cs with
      | some run =>
        match lastStatusIn run with
        | some v => some v
        | none => jsonScan cs
      | none => jsonScan cs
    else jsonScan cs

/-- Embeds `parseStatusFromOutput(output, storyId)`: count completion-pattern
hits, return `blocked` if any block pattern fires, `completed` on two or more
completion hits, else fall back to the embedded-JSON scan. -/
def parseStatusFromOutput (output : String) (storyId : String) : Option InferredStatus :=
  let completionHints := (completionPatterns storyId).countP (fun p => rtest p output)
  if (blockPatterns storyId).any (fun p => rtest p output) then some .blocked
  else if completionHints ≥ 2 then some .completed
  else jsonScan output.data

/-! ## Testing-loop signal detector (`lib/testing.ts`) -/

/-- Result of `detectTestResult`. -/
inductive TestSignal where
  | verified
  | failed
deriving DecidableEq, Repr

/-- Embeds `detectTestResult(output)`: exact marker containment, verified
checked first. -/
def detectTestResult (output : String) : Option TestSignal :=
  if containsSubstring "<test-result>PRD_VERIFIED</test-result>" output then some .verified
  else if containsSubstring "<test-result>PRD_FAILED</test-result>" output then some .failed
  else none

/-- Embeds `extractIssues(output)`: the lazily-matched `<issues>…</issues>`
block is the text between the first opening tag and the first closing tag
after it; split it into lines, trim, keep `-` bullets, strip the dash, trim,
drop empties.  A missing or empty block yields `[]`. -/
def extractIssues (output : String) : List String :=
  match (afterFirst "<issues>".data output.data).bind (beforeFirst "</issues>".data) with
  | none => []
  | some content =>
    if content.isEmpty then []
    else
      (((((splitLines content).map trimChars).filter
          (fun l => "-".data.isPrefixOf l)).map (fun l => trimChars (l.drop 1))).filter
        (fun l => !l.isEmpty)).map (fun l => String.mk l)

/-! ## Persistent store (`lib/state.ts`)

A store is the set of PRD directories: each entry is a unit sitting in one of
the four status folders.  Every modelled entry carries a parsed `prd.json`
(spec-only directories, which exist briefly during interactive creation, are
outside every claim). -/

/-- One PRD directory: its status folder and its `prd.json` contents. -/
structure StoreEntry where
  status : PRDStatus
  prd : PRD
deriving DecidableEq, Repr

/-- The whole on-disk state. -/
abbrev Store := List StoreEntry

/-- The `ALL_STATUSES` search order of `lib/state.ts`. -/
def ALL_STATUSES : List PRDStatus :=
  [.pending, .in_progress, .testing, .completed]

/-- Embeds `findPRDLocation`: first status folder (in `ALL_STATUSES` order)
containing a directory named `name`. -/
def findPRDLocation (store : Store) (name : String) : Option PRDStatus :=
  ALL_STATUSES.find? (fun st => store.any (fun e => e.status == st && e.prd.name == name))

/-- Embeds `getPRD`: read `prd.json` from the located folder (`none` models
the thrown `PRD not found`). -/
def getPRD (store : Store) (name : String) : Option PRD :=
  match findPRDLocation store name with
  | none => none
  | some st => (store.find? (fun e => e.status == st && e.prd.name == name)).map (·.prd)

/-- The `renameSync` of `movePRD`: retag the matching directory entry. -/
def moveEntry (store : Store) (name : String) (fromStatus toStatus : PRDStatus) : Store :=
  match store with
  | [] => []
  | e :: es =>
    if e.status == fromStatus && e.prd.name == name then { e with status := toStatus } :: es
    else e :: moveEntry es name fromStatus toStatus

/-- Embeds `movePRD`: no-op when already at the target status, `PRD not
found` when absent everywhere, `PRD already exists` when the destination
folder has a directory of that name, otherwise a rename. -/
def movePRD (store : Store) (name : String) (toStatus : PRDStatus) : Except RalphError Store :=
  match findPRDLocation store name with
  | none => .error (.prdNotFound name)
  | some currentStatus =>
    if currentStatus = toStatus then .ok store
    else if store.any (fun e => e.status == toStatus && e.prd.name == name) then
      .error (.prdAlreadyExists name toStatus)
    else .ok (moveEntry store name currentStatus toStatus)

/-- Embeds `isPRDComplete`: every story reports `completed`. -/
def isPRDComplete (store : Store) (name : String) : Option Bool :=
  (getPRD store name).map (fun prd => prd.stories.all (fun s => s.status == .completed))

/-- Embeds `isPRDCompleteOrArchived`: true in the `completed` folder; in the
`pending` or `testing` folder, true exactly when all stories are completed;
false elsewhere (including the `in_progress` folder). -/
def isPRDCompleteOrArchived (store : Store) (name : String) : Bool :=
  match findPRDLocation store name with
  | some .completed => true
  | some .pending => (isPRDComplete store name).getD false
  | some .testing => (isPRDComplete store name).getD false
  | _ => false

/-- Embeds `getUnmetDependencies`: the declared dependencies that are not
complete-or-archived, in declaration order. -/
def getUnmetDependencies (store : Store) (name : String) : Option (List String) :=
  (getPRD store name).map (fun prd =>
    (prd.dependencies.getD []).filter (fun dep => !isPRDCompleteOrArchived store dep))

/-- Embeds `canStartPRD`: `canStart` is "no unmet dependency", paired with
the unmet list. -/
def canStartPRD (store : Store) (name : String) : Option (Bool × List String) :=
  (getUnmetDependencies store name).map (fun unmet => (unmet.isEmpty, unmet))

/-! ## Story operations (`lib/state.ts`) -/

/-- Apply `f` to the first story whose id is `storyId` (the
`prd.stories.find(...)` mutate-then-save idiom). -/
def updateFirst (stories : List Story) (storyId : String) (f : Story → Story) : List Story :=
  match stories with
  | [] => []
  | s :: ss => if s.id == storyId then f s :: ss else s :: updateFirst ss storyId f

/-- Stable insertion preserving declaration order among equal priorities. -/
def insertByPriority (s : Story) : List Story → List Story
  | [] => [s]
  | t :: ts => if s.priority ≤ t.priority then s :: t :: ts else t :: insertByPriority s ts

/-- Stable sort by ascending priority, modelling the stable
`stories.sort((a, b) => a.priority - b.priority)`. -/
def sortByPriority : List Story → List Story
  | [] => []
  | s :: ss => insertByPriority s (sortByPriority ss)

/-- Embeds `getNextStory` on a story list: filter to `pending`/`in_progress`,
stable-sort by priority, take the head (`?? null`). -/
def getNextStory (stories : List Story) : Option Story :=
  (sortByPriority (stories.filter
    (fun story => story.status == .pending || story.status == .in_progress))).head?

/-- First element attaining the minimal priority (spec-side helper). -/
def pickFirstMin : List Story → Option Story
  | [] => none
  | s :: ss =>
    match pickFirstMin ss with
    | none => some s
    | some t => if s.priority ≤ t.priority then some s else some t

/-- Modelled from the spec (§4.5 SelectTask): among Tasks with status pending
or active, choose the lowest-priority-number one, ties broken by original
declaration order; none if no Task qualifies.  Used only to compare
`getNextStory` against the specification's words. -/
def selectTaskSpec (stories : List Story) : Option Story :=
  pickFirstMin (stories.filter
    (fun story => story.status == .pending || story.status == .in_progress))

/-- Embeds `unblockStory` on a PRD: requires the story to exist, to be
blocked, and the answer count to equal the question count; then records the
answers and returns the story to `pending`. -/
def unblockStory (prd : PRD) (storyId : String) (answers : List String) :
    Except RalphError PRD :=
  match prd.stories.find? (fun s => s.id == storyId) with
  | none => .error (.storyNotFound storyId)
  | some story =>
    if story.status ≠ .blocked then .error (.storyNotBlocked storyId)
    else if answers.length ≠ story.questions.length then
      .error (.answersMismatch story.questions.length answers.length)
    else
      .ok { prd with stories := (updateFirst prd.stories storyId
        (fun s => { s with answers := some answers, status := .pending })) }

/-- Embeds `updateMetrics` accumulation: each counter is previous
(0 if absent) plus delta (0 if absent); `totalTokens` is recomputed as the
four-way sum.  The store write (`updatePRD`) persists the returned record. -/
def updateMetrics (existing : Option Metrics) (newMetrics : MetricsDelta) : Metrics :=
  let ex := existing.getD ⟨none, none, none, none⟩
  { inputTokens := some (ex.inputTokens.getD 0 + newMetrics.inputTokens.getD 0)
    outputTokens := some (ex.outputTokens.getD 0 + newMetrics.outputTokens.getD 0)
    totalTokens := some (ex.inputTokens.getD 0 + newMetrics.inputTokens.getD 0 +
      ex.outputTokens.getD 0 + newMetrics.outputTokens.getD 0)
    iterations := some (ex.iterations.getD 0 + newMetrics.iterations.getD 0) }

/-! ## Fix stories and the testing step (`lib/state.ts`, `lib/testing.ts`) -/

/-- Embeds `getNextFixStoryId`: one past the maximum numeric suffix among
`FIX-` stories (0 when none parse), zero-padded to width 3. -/
def getNextFixStoryId (stories : List Story) : String :=
  let fixStories := stories.filter (fun s => jsStartsWith s.id "FIX-")
  let maxNum : Int := fixStories.foldl
    (fun mx s =>
      match jsParseInt (String.mk (removeFirst "FIX-".data s.id.data)) with
      | none => mx
      | some num => max mx num) 0
  "FIX-" ++ padStart3 (toString (maxNum + 1))

/-- Embeds `addFixStory`: append a pending priority-1 story whose acceptance
criteria are the review-results pointer, one `Fix:` line per issue, and the
two standing criteria.  `date` abstracts `new Date().toISOString()`'s date
part, which only feeds the title. -/
def addFixStory (prd : PRD) (issues : List String) (testResultsPath : String)
    (date : String) : PRD × String :=
  let storyId := getNextFixStoryId prd.stories
  let newStory : Story :=
    { id := storyId
      title := "Fix bugs from testing (" ++ date ++ ")"
      status := .pending
      priority := 1
      acceptanceCriteria :=
        ["Review test results at " ++ testResultsPath] ++
          issues.map (fun issue => "Fix: " ++ issue) ++
          ["Ensure all items in verification.md pass",
            "All project quality checks must pass"]
      questions := []
      answers := none
      iterationCount := none }
  ({ prd with stories := prd.stories ++ [newStory] }, storyId)

/-- Overall outcome of one `runTesting` pass. -/
inductive TestOutcome where
  | verified
  | failed
  | unknown
deriving DecidableEq, Repr

/-- Embeds the classification tail of `runTesting` on a single unit (its
scripts, report saving and logging have no effect on the unit record): on
`PRD_VERIFIED` move to `completed`; on `PRD_FAILED` append the fix story
built from the extracted issues and move back to `in_progress`; otherwise
leave the unit where it is. -/
def runTestingStep (output : String) (date : String) (prd : PRD)
    (position : PRDStatus) : PRD × PRDStatus × TestOutcome :=
  let issues := extractIssues output
  match detectTestResult output with
  | some .verified => (prd, .completed, .verified)
  | some .failed =>
    let moved := addFixStory prd issues "test-results/report.md" date
    (moved.1, .in_progress, .failed)
  | none => (prd, position, .unknown)

/-! ## Agent runner boundary (`runAgent` in `lib/index.ts`) -/

/-- What the spawned child process does, as the promise callbacks observe it:
either the `error` event fires (the process could not be launched), or the
`close` event fires with the accumulated stdout and stderr and an exit code
(`null` when the process was killed by a signal). -/
inductive SpawnOutcome where
  | launchError (message : String)
  | closed (stdout stderr : String) (code : Option Int)
deriving DecidableEq, Repr

/-- The resolved value of `runAgent`. -/
structure AgentResult where
  output : String
  exitCode : Int
deriving DecidableEq, Repr

/-- Embeds `runAgent` in its default non-streaming mode (`stream = false`,
where the returned output is always `stdout + stderr`): an `error` event
rejects the promise; a `close` event resolves with the concatenated output
and the exit code (`code ?? 1`), whatever that code is. -/
def runAgent (outcome : SpawnOutcome) : Except String AgentResult :=
  match outcome with
  | .launchError message => .error message
  | .closed stdout stderr code => .ok { output := stdout ++ stderr, exitCode := code.getD 1 }

/-! ## Orchestration loop (`runOrchestration` in `lib/index.ts`)

One pass of the `for` loop body is embedded as `runIteration`.  The agent
subprocess is an external collaborator: its printed output and the edits it
may make to the unit's story file are oracle inputs (`agentOut`,
`agentEdit`).  Timestamps, console output, metrics accumulation and the
findings / verification-checklist side channels touch no field any claim
reads and are not tracked; `movePRD` to `testing` acts on the single
orchestrated unit and is modelled as the position change it performs. -/

/-- The unit-wide completion marker. -/
def promiseMarker : String := "<promise>COMPLETE</promise>"

/-- The synthetic question written when a story is auto-blocked after too
many iterations. -/
def autoBlockQuestion (iterationCount : Nat) : String :=
  "Story has been attempted " ++ toString iterationCount ++
    " times without successful completion. Please review the implementation and acceptance criteria."

/-- The synthetic question written when blockage is inferred from output. -/
def inferredBlockQuestion : String :=
  "Agent indicated this story is blocked. Please review the output above for details."

/-- The store-visible state of the orchestrated unit inside the loop: its
stories, its status folder, and the last run record's story id and reason. -/
structure LoopState where
  stories : List Story
  position : PRDStatus
  lastRunStoryId : Option String
  lastRunReason : Option String
deriving DecidableEq, Repr

/-- What one loop iteration did: the resulting state, the story the agent
was invoked on (none when no invocation happened), and whether the loop
stops (`return`, or a `break`-equivalent) instead of continuing. -/
structure IterOutcome where
  state : LoopState
  invoked : Option Story
  stops : Bool
deriving DecidableEq, Repr

/-- The story list as the store holds it right after the invoke step: the
chosen story marked `in_progress` with its iteration counter bumped
(`updateStoryStatus` then the counter save), then whatever edits the agent
subprocess made to the story file. -/
def storiesAfterInvoke (agentEdit : List Story → List Story) (stories : List Story)
    (story : Story) : List Story :=
  agentEdit (updateFirst
    (updateFirst stories story.id (fun s => { s with status := .in_progress }))
    story.id (fun s => { s with iterationCount := some (story.iterationCount.getD 0 + 1) }))

/-- The heuristic fallback tail of the loop body (story still in progress in
the store): infer a status from the raw output; on `completed`, update the
story and continue; on `blocked`, block it with the synthetic question and
stop; otherwise leave everything for the next iteration. -/
def runInference (agentOut : String) (story : Story) (storiesAfter : List Story)
    (st : LoopState) : Except RalphError IterOutcome :=
  match parseStatusFromOutput agentOut story.id with
  | some .completed =>
    if storiesAfter.any (fun s => s.id == story.id) then
      .ok { state := { st with stories := (updateFirst storiesAfter story.id
              (fun s => { s with status := .completed })) }
            invoked := some story
            stops := false }
    else .error (.storyNotFound story.id)
  | some .blocked =>
    if storiesAfter.any (fun s => s.id == story.id) then
      .ok { state := { st with stories := (updateFirst storiesAfter story.id
              (fun s => { s with status := .blocked, questions := [inferredBlockQuestion] })) }
            invoked := some story
            stops := true }
    else .error (.storyNotFound story.id)
  | none =>
    .ok { state := { st with stories := storiesAfter }
          invoked := some story
          stops := false }

/-- Embeds one pass of the `runOrchestration` loop body.  In order:
story selection; the finished-unit exit (move to `testing`); the
retry-storm guard (auto-block after more than 3 iterations in progress);
marking the story in progress and bumping its iteration counter; the agent
invocation (oracles `agentOut`, `agentEdit`); the unit-wide completion
marker; the re-read story status; and the heuristic fallback.  The
`Except` layer carries the `Story not found` throw that
`updateStoryStatus` performs if the agent deleted the story being
inferred about. -/
def runIteration (agentOut : String) (agentEdit : List Story → List Story)
    (st : LoopState) : Except RalphError IterOutcome :=
  match getNextStory st.stories with
  | none =>
    -- "All stories complete!": mark completed, extract findings, move to
    -- testing, generate the verification checklist, record the run.
    .ok { state := { st with
                     position := .testing
                     lastRunStoryId := some "ALL"
                     lastRunReason := some "completed" }
          invoked := none
          stops := true }
  | some story =>
    let iterationCount := story.iterationCount.getD 0 + 1
    if iterationCount > 3 ∧ story.status = .in_progress then
      -- Auto-block the stuck story and stop for manual review.
      .ok { state := { st with
                       stories := (updateFirst st.stories story.id (fun s =>
                         { s with
                           status := .blocked
                           questions := [autoBlockQuestion iterationCount] }))
                       lastRunStoryId := some story.id
                       lastRunReason := some "blocked" }
            invoked := none
            stops := true }
    else
      -- Mark in progress, bump the iteration counter, then run the agent.
      let storiesAfter := storiesAfterInvoke agentEdit st.stories story
      if containsSubstring promiseMarker agentOut then
        if storiesAfter.all (fun s => s.status == .completed) then
          .ok { state := { stories := storiesAfter
                           position := .testing
                           lastRunStoryId := some "ALL"
                           lastRunReason := some "completed" }
                invoked := some story
                stops := true }
        else
          .ok { state := { st with
                           stories := storiesAfter
                           lastRunStoryId := some story.id
                           lastRunReason := some "story_completed" }
                invoked := some story
                stops := true }
      else
        match storiesAfter.find? (fun s => s.id == story.id) with
        | some updatedStory =>
          if updatedStory.status = .completed then
            let stories₃ :=
              if updatedStory.iterationCount.getD 0 > 0 then
                updateFirst storiesAfter story.id (fun s => { s with iterationCount := some 0 })
              else storiesAfter
            .ok { state := { st with
                             stories := stories₃
                             lastRunStoryId := some story.id
                             lastRunReason := some "story_completed" }
                  invoked := some story
                  stops := false }
          else if updatedStory.status = .blocked then
            .ok { state := { st with
                             stories := storiesAfter
                             lastRunStoryId := some story.id
                             lastRunReason := some "blocked" }
                  invoked := some story
                  stops := true }
          else
            runInference agentOut story storiesAfter st
        | none =>
          runInference agentOut story storiesAfter st


/-! ## Helper lemmas -/

/-- Insertion produces a permutation of consing. -/
theorem insertByPriority_perm (s : Story) (l : List Story) :
    (insertByPriority s l).Perm (s :: l) := by
  induction l with
  | nil => exact List.Perm.refl _
  | cons t ts ih =>
    show (if s.priority ≤ t.priority then s :: t :: ts else t :: insertByPriority s ts).Perm
      (s :: t :: ts)
    by_cases h : s.priority ≤ t.priority
    · rw [if_pos h]
    · rw [if_neg h]
      exact (List.Perm.cons t ih).trans (List.Perm.swap s t ts)

/-- The stable sort is a permutation. -/
theorem sortByPriority_perm (l : List Story) : (sortByPriority l).Perm l := by
  induction l with
  | nil => exact List.Perm.refl _
  | cons s ss ih =>
    exact (insertByPriority_perm s (sortByPriority ss)).trans (List.Perm.cons s ih)

/-- A selected story is one of the unit's stories. -/
theorem getNextStory_mem {stories : List Story} {story : Story}
    (h : getNextStory stories = some story) : story ∈ stories := by
  unfold getNextStory at h
  have hmem : story ∈ sortByPriority (stories.filter
      (fun s => s.status == .pending || s.status == .in_progress)) := by
    cases hs : sortByPriority (stories.filter
        (fun s => s.status == .pending || s.status == .in_progress)) with
    | nil => rw [hs] at h; simp at h
    | cons a as => rw [hs] at h; simp only [List.head?_cons, Option.some.injEq] at h; simp [h]
  exact List.mem_of_mem_filter ((sortByPriority_perm _).mem_iff.mp hmem)

/-- If some member satisfies `p`, then `find?` returns a satisfying member. -/
theorem exists_find?_eq_some {α : Type} {p : α → Bool} {l : List α}
    (h : ∃ x ∈ l, p x) : ∃ y, l.find? p = some y ∧ p y = true := by
  induction l with
  | nil => simp at h
  | cons a as ih =>
    cases ha : p a with
    | true => exact ⟨a, by simp [List.find?, ha], ha⟩
    | false =>
      have hex : ∃ x ∈ as, p x := by
        rcases h with ⟨x, hx, hpx⟩
        rcases List.mem_cons.mp hx with rfl | hx'
        · rw [ha] at hpx; exact absurd hpx (by simp)
        · exact ⟨x, hx', hpx⟩
      rcases ih hex with ⟨y, hy, hpy⟩
      exact ⟨y, by simp [List.find?, ha, hy], hpy⟩

/-- Searching by id after an id-preserving first-match update finds the
updated first match. -/
theorem find?_updateFirst (l : List Story) (storyId : String) (f : Story → Story)
    (hf : ∀ s : Story, (f s).id = s.id) :
    (updateFirst l storyId f).find? (fun s => s.id == storyId) =
      (l.find? (fun s => s.id == storyId)).map f := by
  induction l with
  | nil => rfl
  | cons s ss ih =>
    cases h : (s.id == storyId) with
    | true =>
      show (List.find? (fun s => s.id == storyId)
        (if (s.id == storyId) = true then f s :: ss else s :: updateFirst ss storyId f)) = _
      rw [if_pos h]
      simp [List.find?, hf, h]
    | false =>
      show (List.find? (fun s => s.id == storyId)
        (if (s.id == storyId) = true then f s :: ss else s :: updateFirst ss storyId f)) = _
      rw [if_neg (by simp [h])]
      simp [List.find?, h, ih]

/-! ## Claim theorems -/

/-- C10: after every `updateMetrics`, the stored metrics satisfy
`totalTokens = inputTokens + outputTokens`, and each of `inputTokens`,
`outputTokens` and `iterations` equals its previously stored value (0 if
absent) plus the supplied delta (0 if not supplied); nothing is overwritten
destructively. -/
theorem updateMetrics_accumulates (existing : Option Metrics) (delta : MetricsDelta) :
    (updateMetrics existing delta).totalTokens =
      some (((updateMetrics existing delta).inputTokens).getD 0 +
        ((updateMetrics existing delta).outputTokens).getD 0) ∧
    (updateMetrics existing delta).inputTokens =
      some ((existing.bind Metrics.inputTokens).getD 0 + delta.inputTokens.getD 0) ∧
    (updateMetrics existing delta).outputTokens =
      some ((existing.bind Metrics.outputTokens).getD 0 + delta.outputTokens.getD 0) ∧
    (updateMetrics existing delta).iterations =
      some ((existing.bind Metrics.iterations).getD 0 + delta.iterations.getD 0) := by
  cases existing
  all_goals simp [updateMetrics]
  all_goals omega

/-- C8: `runAgent` propagates a failure to launch the process as an error,
while a process that launches and exits nonzero is not an error: the call
resolves with the exit code and, in non-streaming mode, the concatenation
of standard output and standard error as data. -/
theorem runAgent_launch_vs_exit :
    (∀ message, runAgent (.launchError message) = .error message) ∧
    (∀ stdout stderr : String, ∀ code : Int, code ≠ 0 →
      runAgent (.closed stdout stderr (some code)) =
        .ok { output := stdout ++ stderr, exitCode := code }) := by
  exact ⟨fun _ => rfl, fun _ _ _ _ => rfl⟩

/-- Witness for C8 at a concrete nonzero exit code. -/
theorem runAgent_launch_vs_exit_witness :
    runAgent (.launchError "spawn ENOENT") = .error "spawn ENOENT" ∧
    (2 : Int) ≠ 0 ∧
    runAgent (.closed "out" "err" (some 2)) = .ok { output := "out" ++ "err", exitCode := 2 } :=
  ⟨runAgent_launch_vs_exit.1 "spawn ENOENT", by decide,
    runAgent_launch_vs_exit.2 "out" "err" 2 (by decide)⟩

/-- C6: `movePRD` is a no-op (no error, unchanged store) when the unit is
already at the target position; it fails with not-found when the unit is
absent from every position; and it fails with already-exists — returning no
altered store, so the unit stays at its source — when the destination
already holds a same-named unit. -/
theorem movePRD_edge_cases (store : Store) (name : String) (toStatus : PRDStatus) :
    (findPRDLocation store name = none →
      movePRD store name toStatus = .error (.prdNotFound name)) ∧
    (findPRDLocation store name = some toStatus →
      movePRD store name toStatus = .ok store) ∧
    (∀ cur, findPRDLocation store name = some cur → cur ≠ toStatus →
      store.any (fun e => e.status == toStatus && e.prd.name == name) = true →
      movePRD store name toStatus = .error (.prdAlreadyExists name toStatus)) := by
  refine ⟨fun h => by simp [movePRD, h], fun h => by simp [movePRD, h], ?_⟩
  intro cur hloc hne hdest
  simp [movePRD, hloc, hne, hdest]

/-- Concrete store for the C6 witness. -/
def c6store : Store :=
  [ { status := .pending,
      prd := { name := "unit-a", description := "d", stories := [],
               dependencies := none, metrics := none } },
    { status := .testing,
      prd := { name := "unit-a", description := "d", stories := [],
               dependencies := none, metrics := none } } ]

/-- Witness for C6: a unit in `pending` whose name also exists in `testing`;
the three edge cases at concrete inputs. -/
theorem movePRD_edge_cases_witness :
    movePRD c6store "unit-a" .pending = .ok c6store ∧
    movePRD c6store "ghost" .testing = .error (.prdNotFound "ghost") ∧
    movePRD c6store "unit-a" .testing = .error (.prdAlreadyExists "unit-a" .testing) := by
  refine ⟨(movePRD_edge_cases c6store "unit-a" .pending).2.1 (by rfl),
    (movePRD_edge_cases c6store "ghost" .testing).1 (by rfl),
    (movePRD_edge_cases c6store "unit-a" .testing).2.2 .pending (by rfl) (by decide) (by rfl)⟩

/-- C4: `getNextStory` returns, among the pending/active stories (blocked
and completed ones ignored entirely), the one with the numerically lowest
priority, ties broken by original declaration order, and none when no story
qualifies — i.e. it coincides with the spec's SelectTask rule. -/
theorem getNextStory_is_selectTask (stories : List Story) :
    getNextStory stories = selectTaskSpec stories := by
  unfold getNextStory selectTaskSpec
  generalize stories.filter
    (fun story => story.status == .pending || story.status == .in_progress) = l
  induction l with
  | nil => rfl
  | cons s ss ih =>
    show (insertByPriority s (sortByPriority ss)).head? = _
    rw [show pickFirstMin (s :: ss) = (match pickFirstMin ss with
      | none => some s
      | some t => if s.priority ≤ t.priority then some s else some t) from rfl, ← ih]
    cases hs : sortByPriority ss with
    | nil => rfl
    | cons t ts =>
      show (if s.priority ≤ t.priority then s :: t :: ts else t :: insertByPriority s ts).head? = _
      by_cases h : s.priority ≤ t.priority
      · rw [if_pos h]; simp [h]
      · rw [if_neg h]; simp [h]

/-- C7: `unblockStory` succeeds exactly when the target story is blocked and
the supplied answers match the questions in number; on success the answers
are stored and the story leaves `blocked` (returning to `pending`); on any
mismatch it returns the error and no updated record, so the persisted story
is unchanged. -/
theorem unblockStory_contract (prd : PRD) (storyId : String) (answers : List String)
    (story : Story) (hfind : prd.stories.find? (fun s => s.id == storyId) = some story) :
    ((∃ prd', unblockStory prd storyId answers = .ok prd') ↔
      (story.status = .blocked ∧ answers.length = story.questions.length)) ∧
    (∀ prd', unblockStory prd storyId answers = .ok prd' →
      prd'.stories.find? (fun s => s.id == storyId) =
        some { story with answers := some answers, status := .pending }) := by
  unfold unblockStory
  rw [hfind]
  dsimp only
  by_cases hb : story.status = .blocked
  · rw [if_neg (fun hc => hc hb)]
    by_cases hl : answers.length = story.questions.length
    · rw [if_neg (fun hc => hc hl)]
      refine ⟨⟨fun _ => ⟨hb, hl⟩, fun _ => ⟨_, rfl⟩⟩, ?_⟩
      intro prd' h
      rw [Except.ok.injEq] at h
      subst h
      rw [find?_updateFirst prd.stories storyId
        (fun s => { s with answers := some answers, status := .pending }) (fun s => rfl), hfind]
      rfl
    · rw [if_pos hl]
      refine ⟨⟨fun ⟨p, hp⟩ => Except.noConfusion hp, fun hc => absurd hc.2 hl⟩, ?_⟩
      intro prd' h
      exact Except.noConfusion h
  · rw [if_pos hb]
    refine ⟨⟨fun ⟨p, hp⟩ => Except.noConfusion hp, fun hc => absurd hc.1 hb⟩, ?_⟩
    intro prd' h
    exact Except.noConfusion h

/-- Concrete unit for the C7 witness. -/
def c7prd : PRD :=
  { name := "unit-b"
    description := "d"
    stories := [
      { id := "US-001", title := "t", acceptanceCriteria := ["a"], status := .blocked,
        priority := 1, questions := ["what db?"], answers := none, iterationCount := none }]
    dependencies := none
    metrics := none }

/-- Witness for C7: unblocking the blocked story with a matching answer list
succeeds and stores the answers; a mismatched answer list fails. -/
theorem unblockStory_contract_witness :
    (∃ prd', unblockStory c7prd "US-001" ["use sqlite"] = .ok prd') ∧
    ¬(∃ prd', unblockStory c7prd "US-001" [] = .ok prd') := by
  constructor
  · exact ((unblockStory_contract c7prd "US-001" ["use sqlite"] _ rfl).1).mpr
      ⟨rfl, by decide⟩
  · intro hex
    have := ((unblockStory_contract c7prd "US-001" [] _ rfl).1).mp hex
    simp at this

/-- Concrete failed verification output with exactly two bulleted issues. -/
def c3out : String :=
  "<test-result>PRD_FAILED</test-result>\n<issues>\n- first\n- second\n</issues>"

/-- Concrete fix-free unit for C3. -/
def c3prd : PRD :=
  { name := "unit-c", description := "d", stories := [], dependencies := none, metrics := none }

/-- C3 counterexample: on a failed verification with exactly two bulleted
issues against a previously fix-free unit, the appended remedial task has id
`FIX-001` and priority 1 as claimed, but its acceptance-criteria list has
FIVE entries (the review-results pointer, two issue-derived, two standing),
not four. -/
theorem addFixStory_counterexample :
    detectTestResult c3out = some .failed ∧
    extractIssues c3out = ["first", "second"] ∧
    (runTestingStep c3out "2026-01-01" c3prd .testing).2.1 = .in_progress ∧
    ((runTestingStep c3out "2026-01-01" c3prd .testing).1.stories.map
      (fun s => (s.id, s.priority, s.acceptanceCriteria.length))) = [("FIX-001", 1, 5)] :=
  ⟨rfl, rfl, rfl, rfl⟩

/-- C3 (amended): when the verification output carries the failed marker and
exactly two bulleted issues, the remedial task appended to a previously
fix-free unit has id `FIX-001`, priority 1, and exactly five acceptance
criteria — the review-results pointer, the two issue-derived criteria, and
the two standing criteria — and the unit moves from testing back to
`in_progress`. -/
theorem runTesting_failed_appends_fix (prd : PRD) (output date : String)
    (i₁ i₂ : String)
    (hfixfree : ∀ s ∈ prd.stories, jsStartsWith s.id "FIX-" = false)
    (hfail : detectTestResult output = some .failed)
    (hissues : extractIssues output = [i₁, i₂]) :
    (runTestingStep output date prd .testing).2.1 = .in_progress ∧
    (runTestingStep output date prd .testing).2.2 = .failed ∧
    (runTestingStep output date prd .testing).1.stories = prd.stories ++
      [{ id := "FIX-001"
         title := "Fix bugs from testing (" ++ date ++ ")"
         status := .pending
         priority := 1
         acceptanceCriteria := ["Review test results at test-results/report.md",
           "Fix: " ++ i₁, "Fix: " ++ i₂,
           "Ensure all items in verification.md pass",
           "All project quality checks must pass"]
         questions := []
         answers := none
         iterationCount := none }] := by
  have hfilter : prd.stories.filter (fun s => jsStartsWith s.id "FIX-") = [] :=
    List.filter_eq_nil_iff.mpr (fun s hs => by simp [hfixfree s hs])
  have hid : getNextFixStoryId prd.stories = "FIX-001" := by
    unfold getNextFixStoryId
    rw [hfilter]
    rfl
  unfold runTestingStep
  rw [hfail, hissues]
  unfold addFixStory
  rw [hid]
  exact ⟨rfl, rfl, rfl⟩

/-- Witness for C3 (amended) at the concrete failed output. -/
theorem runTesting_failed_appends_fix_witness :
    (runTestingStep c3out "2026-01-01" c3prd .testing).2.1 = .in_progress ∧
    (runTestingStep c3out "2026-01-01" c3prd .testing).1.stories = c3prd.stories ++
      [{ id := "FIX-001"
         title := "Fix bugs from testing (" ++ "2026-01-01" ++ ")"
         status := .pending
         priority := 1
         acceptanceCriteria := ["Review test results at test-results/report.md",
           "Fix: " ++ "first", "Fix: " ++ "second",
           "Ensure all items in verification.md pass",
           "All project quality checks must pass"]
         questions := []
         answers := none
         iterationCount := none }] := by
  have h := runTesting_failed_appends_fix c3prd c3out "2026-01-01" "first" "second"
    (by intro s hs; simp [c3prd] at hs) (by rfl) (by rfl)
  exact ⟨h.1, h.2.2⟩

/-- Dependency satisfaction exactly as claim C1 words it: the prerequisite
is physically in the completed position, or it is in the pending or active
(`in_progress`) position and every one of its stories is completed.  Used
only to compare the code against the claim. -/
def depSatisfiedClaim (store : Store) (dep : String) : Bool :=
  (findPRDLocation store dep == some .completed) ||
    (((findPRDLocation store dep == some .pending) ||
        (findPRDLocation store dep == some .in_progress)) &&
      ((getPRD store dep).map (fun prd =>
        prd.stories.all (fun s => s.status == .completed))).getD false)

/-- Dependency satisfaction as the code computes it, stated spec-style:
completed position, or pending/TESTING position with every story
completed. -/
def depSatisfiedAmended (store : Store) (dep : String) : Bool :=
  (findPRDLocation store dep == some .completed) ||
    (((findPRDLocation store dep == some .pending) ||
        (findPRDLocation store dep == some .testing)) &&
      ((getPRD store dep).map (fun prd =>
        prd.stories.all (fun s => s.status == .completed))).getD false)

/-- Concrete store refuting C1: the dependency sits in `in_progress` with
all of its stories completed. -/
def c1store : Store :=
  [ { status := .in_progress,
      prd := { name := "dep", description := "d",
               stories := [
                 { id := "US-001", title := "t", acceptanceCriteria := [],
                   status := .completed, priority := 1, questions := [],
                   answers := none, iterationCount := none }],
               dependencies := none, metrics := none } },
    { status := .pending,
      prd := { name := "main", description := "d", stories := [],
               dependencies := some ["dep"], metrics := none } } ]

/-- C1 counterexample: a prerequisite in the active (`in_progress`) position
with every story completed is satisfied per the claim, yet the code reports
it unmet and refuses to start the dependent unit. -/
theorem canStartPRD_counterexample :
    depSatisfiedClaim c1store "dep" = true ∧
    canStartPRD c1store "main" = some (false, ["dep"]) :=
  ⟨rfl, rfl⟩

/-- C1 (amended): a prerequisite counts as satisfied exactly when it is in
the completed position, or in the pending or TESTING position with every
story completed (a unit in the active position is never counted satisfied);
`canStartPRD` reports ok with an empty unmet list exactly when every
prerequisite is satisfied, and otherwise lists the unsatisfied prerequisite
identifiers in declaration order. -/
theorem canStartPRD_dependency_gate (store : Store) (name : String) (prd : PRD)
    (hget : getPRD store name = some prd) :
    (∀ dep, isPRDCompleteOrArchived store dep = depSatisfiedAmended store dep) ∧
    getUnmetDependencies store name =
      some ((prd.dependencies.getD []).filter (fun dep => !depSatisfiedAmended store dep)) ∧
    (∀ ok unmet, canStartPRD store name = some (ok, unmet) →
      unmet = (prd.dependencies.getD []).filter (fun dep => !depSatisfiedAmended store dep) ∧
        (ok = true ↔
          ∀ dep ∈ prd.dependencies.getD [], depSatisfiedAmended store dep = true)) := by
  have hsat : ∀ dep, isPRDCompleteOrArchived store dep = depSatisfiedAmended store dep := by
    intro dep
    unfold isPRDCompleteOrArchived depSatisfiedAmended isPRDComplete
    cases h : findPRDLocation store dep with
    | none => simp [h]
    | some st => cases st <;> simp [h]
  have hunmet : getUnmetDependencies store name =
      some ((prd.dependencies.getD []).filter (fun dep => !depSatisfiedAmended store dep)) := by
    unfold getUnmetDependencies
    rw [hget]
    simp only [Option.map_some', Option.some.injEq]
    exact List.filter_congr (fun dep _ => by rw [hsat])
  refine ⟨hsat, hunmet, ?_⟩
  intro ok unmet h
  unfold canStartPRD at h
  rw [hunmet] at h
  simp only [Option.map_some', Option.some.injEq, Prod.mk.injEq] at h
  refine ⟨h.2.symm, ?_⟩
  rw [← h.1]
  rw [List.isEmpty_iff, List.filter_eq_nil_iff]
  constructor
  · intro hall dep hdep
    have := hall dep hdep
    simpa using this
  · intro hall dep hdep
    simp [hall dep hdep]

/-- Concrete store for the C1 witness: the dependency is in `testing` with
every story completed. -/
def c1witnessStore : Store :=
  [ { status := .testing,
      prd := { name := "dep", description := "d",
               stories := [
                 { id := "US-001", title := "t", acceptanceCriteria := [],
                   status := .completed, priority := 1, questions := [],
                   answers := none, iterationCount := none }],
               dependencies := none, metrics := none } },
    { status := .pending,
      prd := { name := "main", description := "d", stories := [],
               dependencies := some ["dep"], metrics := none } } ]

/-- Witness for C1 (amended): a store whose single dependency sits in
`testing` with all stories completed satisfies the gate. -/
theorem canStartPRD_dependency_gate_witness :
    getUnmetDependencies c1witnessStore "main" = some [] ∧
    canStartPRD c1witnessStore "main" = some (true, []) := by
  have h := canStartPRD_dependency_gate c1witnessStore "main"
    { name := "main", description := "d", stories := [],
      dependencies := some ["dep"], metrics := none } rfl
  refine ⟨?_, ?_⟩
  · rw [h.2.1]; rfl
  · have hc : canStartPRD c1witnessStore "main" = some (true, []) := rfl
    exact hc

/-- C5: in `parseStatusFromOutput`, a firing block pattern forces `blocked`
even when completion patterns also fire; with no block pattern firing,
heuristic `completed` needs two or more distinct completion patterns to
fire; and below that threshold the result is whatever the embedded-JSON
scan yields — in particular `none` when nothing matches. -/
theorem parseStatusFromOutput_priorities (output storyId : String) :
    ((blockPatterns storyId).any (fun p => rtest p output) = true →
      parseStatusFromOutput output storyId = some .blocked) ∧
    ((blockPatterns storyId).any (fun p => rtest p output) = false →
      2 ≤ (completionPatterns storyId).countP (fun p => rtest p output) →
      parseStatusFromOutput output storyId = some .completed) ∧
    ((blockPatterns storyId).any (fun p => rtest p output) = false →
      (completionPatterns storyId).countP (fun p => rtest p output) < 2 →
      parseStatusFromOutput output storyId = jsonScan output.data) := by
  unfold parseStatusFromOutput
  refine ⟨fun hb => ?_, fun hb hc => ?_, fun hb hc => ?_⟩
  · rw [if_pos hb]
  · rw [if_neg (by simp [hb]), if_pos hc]
  · rw [if_neg (by simp [hb]), if_neg (by omega)]

/-- Witness for C5: block precedence over two firing completion patterns at
one concrete output, and a single completion hint falling through to a
fruitless JSON scan at another. -/
theorem parseStatusFromOutput_priorities_witness :
    parseStatusFromOutput "US-001 completed. All checks pass. cannot proceed" "US-001" =
      some .blocked ∧
    parseStatusFromOutput "US-001 completed" "US-001" = none := by
  constructor
  · exact (parseStatusFromOutput_priorities
      "US-001 completed. All checks pass. cannot proceed" "US-001").1 (by rfl)
  · exact ((parseStatusFromOutput_priorities "US-001 completed" "US-001").2.2
      (by rfl) (by decide)).trans (by rfl)

/-- The current story of the C2 scenario. -/
def c2story : Story :=
  { id := "US-001"
    title := "a"
    acceptanceCriteria := []
    status := .in_progress
    priority := 1
    questions := []
    answers := none
    iterationCount := none }

/-- Concrete loop state refuting C2: the chosen story `US-001` is fresh, a
second story is still pending, and the agent makes no file edits. -/
def c2st : LoopState :=
  { stories := [c2story,
      { id := "US-002"
        title := "b"
        acceptanceCriteria := []
        status := .pending
        priority := 2
        questions := []
        answers := none
        iterationCount := none }]
    position := .in_progress
    lastRunStoryId := none
    lastRunReason := none }

/-- Concrete agent output carrying the unit-wide completion marker. -/
def c2out : String := "did some work <promise>COMPLETE</promise>"

/-- C2 counterexample: the output contains the unit-wide marker and tasks
remain incomplete, yet the loop stops with the current task `US-001` still
`in_progress` — its status is NOT set to completed as the claim asserts. -/
theorem runIteration_marker_counterexample :
    containsSubstring promiseMarker c2out = true ∧
    (runIteration c2out (fun l => l) c2st).map (fun o =>
      (o.stops, o.state.stories.map (fun s => (s.id, s.status)))) =
      .ok (true, [("US-001", .in_progress), ("US-002", .pending)]) :=
  ⟨rfl, rfl⟩

/-- C2 (amended): in an iteration whose agent output contains the unit-wide
completion marker, if the store then confirms all tasks completed, the unit
moves to testing and the loop stops; if tasks remain incomplete, the loop
stops after recording a task-level run record (reason `story_completed`)
for the current task only — it writes no task status, leaving the stories
exactly as the store held them after the invocation. -/
theorem runIteration_marker (agentOut : String) (agentEdit : List Story → List Story)
    (st : LoopState) (story : Story)
    (hstory : getNextStory st.stories = some story)
    (hguard : ¬(story.iterationCount.getD 0 + 1 > 3 ∧ story.status = .in_progress))
    (hmarker : containsSubstring promiseMarker agentOut = true) :
    ((storiesAfterInvoke agentEdit st.stories story).all
        (fun s => s.status == .completed) = true →
      runIteration agentOut agentEdit st =
        .ok { state := { stories := storiesAfterInvoke agentEdit st.stories story
                         position := .testing
                         lastRunStoryId := some "ALL"
                         lastRunReason := some "completed" }
              invoked := some story
              stops := true }) ∧
    ((storiesAfterInvoke agentEdit st.stories story).all
        (fun s => s.status == .completed) = false →
      runIteration agentOut agentEdit st =
        .ok { state := { st with
                         stories := storiesAfterInvoke agentEdit st.stories story
                         lastRunStoryId := some story.id
                         lastRunReason := some "story_completed" }
              invoked := some story
              stops := true }) := by
  unfold runIteration
  rw [hstory]
  dsimp only
  rw [if_neg hguard, if_pos hmarker]
  constructor
  · intro hall
    rw [if_pos hall]
  · intro hall
    rw [if_neg (by simp [hall])]

/-- Witness for C2 (amended), exercising the incomplete-tasks branch at the
concrete state `c2st`. -/
theorem runIteration_marker_witness :
    runIteration c2out (fun l => l) c2st =
      .ok { state := { c2st with
                       stories := storiesAfterInvoke (fun l => l) c2st.stories c2story
                       lastRunStoryId := some "US-001"
                       lastRunReason := some "story_completed" }
            invoked := some c2story
            stops := true } :=
  (runIteration_marker c2out (fun l => l) c2st c2story rfl (by decide) rfl).2 rfl

/-- C9: the loop never invokes the agent on a chosen task that is active
(`in_progress`) with a retry counter exceeding 3: that iteration invokes
nothing, stops, and leaves the task blocked with the synthetic question. -/
theorem runIteration_autoblock (agentOut : String) (agentEdit : List Story → List Story)
    (st : LoopState) (story : Story)
    (hstory : getNextStory st.stories = some story)
    (hactive : story.status = .in_progress)
    (hretry : story.iterationCount.getD 0 > 3) :
    ∃ o, runIteration agentOut agentEdit st = .ok o ∧
      o.invoked = none ∧
      o.stops = true ∧
      ∃ s', o.state.stories.find? (fun s => s.id == story.id) = some s' ∧
        s'.status = .blocked ∧
        s'.questions = [autoBlockQuestion (story.iterationCount.getD 0 + 1)] := by
  unfold runIteration
  rw [hstory]
  dsimp only
  rw [if_pos ⟨by omega, hactive⟩]
  refine ⟨_, rfl, rfl, rfl, ?_⟩
  show ∃ s', List.find? _ (updateFirst st.stories story.id _) = some s' ∧ _
  rw [find?_updateFirst st.stories story.id
    (fun s => { s with
                status := .blocked
                questions := [autoBlockQuestion (story.iterationCount.getD 0 + 1)] })
    (fun s => rfl)]
  obtain ⟨y, hy, -⟩ := exists_find?_eq_some (p := fun s => s.id == story.id)
    ⟨story, getNextStory_mem hstory, beq_self_eq_true story.id⟩
  rw [hy]
  exact ⟨_, rfl, rfl, rfl⟩

/-- Concrete loop state for the C9 witness: the only story is active with a
retry counter of 4. -/
def c9st : LoopState :=
  { stories := [{ c2story with iterationCount := some 4 }]
    position := .in_progress
    lastRunStoryId := none
    lastRunReason := none }

/-- Witness for C9 at the concrete stuck state `c9st`. -/
theorem runIteration_autoblock_witness :
    ∃ o, runIteration "no marker here" (fun l => l) c9st = .ok o ∧
      o.invoked = none ∧
      o.stops = true ∧
      ∃ s', o.state.stories.find? (fun s => s.id == "US-001") = some s' ∧
        s'.status = .blocked ∧
        s'.questions = [autoBlockQuestion 5] :=
  runIteration_autoblock "no marker here" (fun l => l) c9st
    { c2story with iterationCount := some 4 } rfl rfl (by decide)

end Ralph
